import Mathlib

/-!
Verification of the termoPy thermodynamic-process library.

The floating-point code of `termoPy.py` is modelled over the exact reals:
every numpy array (a trajectory of `steps` samples) becomes a function
`ℕ → ℝ` together with its length, `np.linspace` becomes the affine
interpolation formula, and every Python `assert` becomes an `Option`
result (`none` = the assertion fires).  All constants (`R`, `K`,
`allowed_error`) keep their source values.
-/

open Real

noncomputable section

namespace termoPy

/-- Gas constant, line 7 of the source: `R = 8.314`. -/
def R : ℝ := 8.314

/-- Default number of trajectory steps, line 8: `K = 10000`. -/
def K : ℕ := 10000

/-- Numeric tolerance, line 8: `allowed_error = 1e-4`. -/
def allowed_error : ℝ := 1e-4

/-- Number of absent (`None`) entries among the four state inputs. -/
def numNone (P V T n : Option ℝ) : ℕ :=
  P.isNone.toNat + V.isNone.toNat + T.isNone.toNat + n.isNone.toNat

/-- Embedding of `BaseProcess._find_missing` (lines 169-182): assert that more than two
of `P1,V1,T1,n` are defined, then back-fill the first missing one via the
ideal gas law.  When all four are defined every branch is skipped and the
inputs are returned unchanged — there is no consistency check. -/
def find_missing (P1 V1 T1 n : Option ℝ) : Option (ℝ × ℝ × ℝ × ℝ) :=
  if 2 ≤ numNone P1 V1 T1 n then none
  else
    match P1, V1, T1, n with
    | none, some v, some t, some m => some (m * R * t / v, v, t, m)
    | some p, none, some t, some m => some (p, m * R * t / p, t, m)
    | some p, some v, none, some m => some (p, v, p * v / (m * R), m)
    | some p, some v, some t, none => some (p, v, t, p * v / (R * t))
    | some p, some v, some t, some m => some (p, v, t, m)
    | _, _, _, _ => none

/-- Embedding of `IdealGas.find_missing_values` (lines 406-420): assert that exactly one
of `P,V,T,n` is absent, then fill it in.  The final `else` branch with the
`|PV - nRT| < 1e-10` consistency check is unreachable: it would require
zero absent values, which the leading assertion already rejects. -/
def find_missing_values (P V T n : Option ℝ) : Option (ℝ × ℝ × ℝ × ℝ) :=
  if numNone P V T n ≠ 1 then none
  else
    match P, V, T, n with
    | none, some v, some t, some m => some (m * R * t / v, v, t, m)
    | some p, none, some t, some m => some (p, m * R * t / p, t, m)
    | some p, some v, none, some m => some (p, v, p * v / (m * R), m)
    | some p, some v, some t, none => some (p, v, t, p * v / (R * t))
    | some p, some v, some t, some m =>
        if |p * v - m * R * t| < 1e-10 then some (p, v, t, m) else none
    | _, _, _, _ => none

/-- Heat-capacity data set by `BaseProcess.__init__` (lines 31-42). -/
structure GasCoeffs where
  Cv : ℝ
  Cp : ℝ
  gamma : ℝ

/-- The flag-driven coefficient table of `BaseProcess.__init__`
(lines 31-42): monatomic, diatomic, or the monatomic default. -/
def initCoeffs (monatomic diatomic : Bool) : GasCoeffs :=
  if monatomic then ⟨3/2 * R, 5/2 * R, 5/3⟩
  else if diatomic then ⟨5/2 * R, 7/2 * R, 7/5⟩
  else ⟨3/2 * R, 5/2 * R, 5/3⟩

/-- Embedding of `BaseProcess.__init__` (lines 14-50) restricted to the fields the gas
identity is supposed to configure: the body reads only the `monatomic` and
`diatomic` flags, never the `gas` argument, and leaves `M = None`. -/
def BaseProcess.init (monatomic diatomic : Bool) (_gas : Option String) :
    GasCoeffs × Option ℝ :=
  (initCoeffs monatomic diatomic, none)

/-- A completed initial process state (`n`, `P1`, `V1`, `T1`). -/
structure PState where
  n : ℝ
  P1 : ℝ
  V1 : ℝ
  T1 : ℝ

/-- Embedding of `BaseProcess.P` (lines 76-77): pressure back-filled from the gas law;
this is the value `_find_missing` stores when only `P1` is absent. -/
def backfillP (n V T : ℝ) : ℝ := n * R * T / V

/-- Value of `np.linspace a b steps` at sample `i`. -/
def linspace (a b : ℝ) (steps i : ℕ) : ℝ :=
  a + (b - a) * i / ((steps : ℝ) - 1)

theorem linspace_zero (a b : ℝ) (s : ℕ) : linspace a b s 0 = a := by
  simp [linspace]

theorem linspace_last (a b : ℝ) {s : ℕ} (hs : 2 ≤ s) :
    linspace a b s (s - 1) = b := by
  have h1 : (1 : ℕ) ≤ s := le_trans (by norm_num) hs
  have hcast : ((s - 1 : ℕ) : ℝ) = (s : ℝ) - 1 := by
    push_cast [Nat.cast_sub h1]; ring
  have hne : (s : ℝ) - 1 ≠ 0 := by
    have : (2 : ℝ) ≤ (s : ℝ) := by exact_mod_cast hs
    linarith
  field_simp [linspace, hcast]

/-- Every linspace sample with index below `steps` is strictly positive
when both endpoints are. -/
theorem linspace_pos {a b : ℝ} (ha : 0 < a) (hb : 0 < b) {s i : ℕ}
    (hs : 2 ≤ s) (hi : i < s) : 0 < linspace a b s i := by
  have hs1 : (1 : ℝ) ≤ ((s : ℝ) - 1) := by
    have : (2 : ℝ) ≤ (s : ℝ) := by exact_mod_cast hs
    linarith
  have hden : (0 : ℝ) < (s : ℝ) - 1 := by linarith
  have hiR : (i : ℝ) ≤ (s : ℝ) - 1 := by
    have : (i : ℝ) + 1 ≤ (s : ℝ) := by exact_mod_cast hi
    linarith
  have ht0 : 0 ≤ (i : ℝ) / ((s : ℝ) - 1) := by positivity
  have ht1 : (i : ℝ) / ((s : ℝ) - 1) ≤ 1 := by
    rw [div_le_one hden]; exact hiR
  have hexp : linspace a b s i
      = a * (1 - (i : ℝ) / ((s : ℝ) - 1)) + b * ((i : ℝ) / ((s : ℝ) - 1)) := by
    unfold linspace; ring
  rw [hexp]
  rcases lt_or_le ((i : ℝ) / ((s : ℝ) - 1)) 1 with h | h
  · have h1 : 0 < a * (1 - (i : ℝ) / ((s : ℝ) - 1)) := by nlinarith
    have h2 : 0 ≤ b * ((i : ℝ) / ((s : ℝ) - 1)) := by positivity
    linarith
  · have hteq : (i : ℝ) / ((s : ℝ) - 1) = 1 := le_antisymm ht1 h
    rw [hteq]; nlinarith

/-- Everything a single `generate_data_from_d*` call leaves on a process
object: the three trajectory arrays (as index functions plus a length),
the retained initial state and heat-capacity data, and the scalar
work/heat outputs of `calculate_work_done_by`/`calculate_heat_absorbed`. -/
structure Run where
  n : ℝ
  Cv : ℝ
  Cp : ℝ
  T1 : ℝ
  V1 : ℝ
  P1 : ℝ
  steps : ℕ
  volume : ℕ → ℝ
  pressure : ℕ → ℝ
  temperature : ℕ → ℝ
  work_done_by : ℝ
  heat_absorbed : ℝ

/-- Line 61: `work_done_on = -work_done_by`. -/
def Run.work_done_on (r : Run) : ℝ := -r.work_done_by

/-- Line 56: `internal_energy = Cv*n*temperature` (elementwise). -/
def Run.internal_energy (r : Run) (i : ℕ) : ℝ := r.Cv * r.n * r.temperature i

/-- Line 57: `entropy = n*log(volume) + Cv*log(temperature)` (elementwise). -/
def Run.entropy (r : Run) (i : ℕ) : ℝ :=
  r.n * Real.log (r.volume i) + r.Cv * Real.log (r.temperature i)

/-- Line 58: the elementwise residual `pressure*volume - n*R*temperature`. -/
def Run.ideal_gas_law_consistency (r : Run) (i : ℕ) : ℝ :=
  r.pressure i * r.volume i - r.n * R * r.temperature i

/-- Line 72: `work_done_on + heat_absorbed - internal_energy[-1] +
internal_energy[0]`. -/
def Run.first_law_consistency (r : Run) : ℝ :=
  r.work_done_on + r.heat_absorbed
    - r.internal_energy (r.steps - 1) + r.internal_energy 0

/-- Lines 187-188: `np.all(np.abs(ideal_gas_law_consistency) < allowed_error)`. -/
def Run.is_ideal_gas (r : Run) : Prop :=
  ∀ i < r.steps, |r.ideal_gas_law_consistency i| < allowed_error

/-- Lines 190-191: `np.abs(first_law_consistency) < allowed_error`. -/
def Run.is_first_law_satisfied (r : Run) : Prop :=
  |r.first_law_consistency| < allowed_error

/-- Embedding of `Isothermal.generate_data_from_dV` (lines 230-235) together with the
isothermal work/heat formulas (lines 220-228): volume swept linearly,
pressure from the gas law at fixed `T1`, temperature constant,
`work_done_by = R*n*T1*log(volume[-1]/V1)`, `heat_absorbed = work_done_by`. -/
def Isothermal.run_dV (st : PState) (co : GasCoeffs) (V2 : ℝ) (s : ℕ) : Run :=
  let vol : ℕ → ℝ := fun i => linspace st.V1 V2 s i
  let wdb : ℝ := R * st.n * st.T1 * Real.log (vol (s - 1) / st.V1)
  { n := st.n, Cv := co.Cv, Cp := co.Cp, T1 := st.T1, V1 := st.V1, P1 := st.P1,
    steps := s, volume := vol,
    pressure := fun i => st.n * R * st.T1 / vol i,
    temperature := fun _ => st.T1,
    work_done_by := wdb, heat_absorbed := wdb }

/-- Embedding of `Isothermal.generate_data_from_dP` (lines 237-242): pressure swept
linearly, volume from the gas law at fixed `T1`, temperature constant. -/
def Isothermal.run_dP (st : PState) (co : GasCoeffs) (P2 : ℝ) (s : ℕ) : Run :=
  let press : ℕ → ℝ := fun i => linspace st.P1 P2 s i
  let vol : ℕ → ℝ := fun i => st.n * R * st.T1 / press i
  let wdb : ℝ := R * st.n * st.T1 * Real.log (vol (s - 1) / st.V1)
  { n := st.n, Cv := co.Cv, Cp := co.Cp, T1 := st.T1, V1 := st.V1, P1 := st.P1,
    steps := s, volume := vol, pressure := press,
    temperature := fun _ => st.T1,
    work_done_by := wdb, heat_absorbed := wdb }

/-- Embedding of `Isobaric.generate_data_from_dV` (lines 259-264) with the isobaric
work/heat formulas (lines 249-257): volume swept linearly, temperature
from the gas law at fixed `P1`, pressure constant,
`work_done_by = P1*(volume[-1]-V1)`, `heat = n*Cp*(temperature[-1]-T1)`. -/
def Isobaric.run_dV (st : PState) (co : GasCoeffs) (V2 : ℝ) (s : ℕ) : Run :=
  let vol : ℕ → ℝ := fun i => linspace st.V1 V2 s i
  let temp : ℕ → ℝ := fun i => st.P1 * vol i / (st.n * R)
  { n := st.n, Cv := co.Cv, Cp := co.Cp, T1 := st.T1, V1 := st.V1, P1 := st.P1,
    steps := s, volume := vol,
    pressure := fun _ => st.P1, temperature := temp,
    work_done_by := st.P1 * (vol (s - 1) - st.V1),
    heat_absorbed := st.n * co.Cp * (temp (s - 1) - st.T1) }

/-- Embedding of `Isobaric.generate_data_from_dT` (lines 266-271): temperature swept
linearly, volume from the gas law at fixed `P1`, pressure constant. -/
def Isobaric.run_dT (st : PState) (co : GasCoeffs) (T2 : ℝ) (s : ℕ) : Run :=
  let temp : ℕ → ℝ := fun i => linspace st.T1 T2 s i
  let vol : ℕ → ℝ := fun i => st.n * R * temp i / st.P1
  { n := st.n, Cv := co.Cv, Cp := co.Cp, T1 := st.T1, V1 := st.V1, P1 := st.P1,
    steps := s, volume := vol,
    pressure := fun _ => st.P1, temperature := temp,
    work_done_by := st.P1 * (vol (s - 1) - st.V1),
    heat_absorbed := st.n * co.Cp * (temp (s - 1) - st.T1) }

/-- Embedding of `Isochoric.generate_data_from_dT` (lines 288-293) with the isochoric
work/heat formulas (lines 278-286): temperature swept linearly, pressure
from the gas law at fixed `V1`, volume constant, zero work,
`heat = n*Cv*(temperature[-1]-T1)`. -/
def Isochoric.run_dT (st : PState) (co : GasCoeffs) (T2 : ℝ) (s : ℕ) : Run :=
  let temp : ℕ → ℝ := fun i => linspace st.T1 T2 s i
  { n := st.n, Cv := co.Cv, Cp := co.Cp, T1 := st.T1, V1 := st.V1, P1 := st.P1,
    steps := s, volume := fun _ => st.V1,
    pressure := fun i => st.n * R * temp i / st.V1, temperature := temp,
    work_done_by := 0,
    heat_absorbed := st.n * co.Cv * (temp (s - 1) - st.T1) }

/-- Embedding of `Isochoric.generate_data_from_dP` (lines 295-300): pressure swept
linearly, temperature from the gas law at fixed `V1`, volume constant. -/
def Isochoric.run_dP (st : PState) (co : GasCoeffs) (P2 : ℝ) (s : ℕ) : Run :=
  let press : ℕ → ℝ := fun i => linspace st.P1 P2 s i
  let temp : ℕ → ℝ := fun i => press i * st.V1 / (st.n * R)
  { n := st.n, Cv := co.Cv, Cp := co.Cp, T1 := st.T1, V1 := st.V1, P1 := st.P1,
    steps := s, volume := fun _ => st.V1,
    pressure := press, temperature := temp,
    work_done_by := 0,
    heat_absorbed := st.n * co.Cv * (temp (s - 1) - st.T1) }

/-- Embedding of `Adiabatic.generate_data_from_dV` (lines 343-348) with the isentropic
relations `P2_from_V2`/`T2_from_V2` (lines 309-315) and the adiabatic
work/heat formulas (lines 333-341): volume swept linearly,
`pressure = P1*(V1/V)^gamma`, `temperature = T1*(V1/V)^(gamma-1)`,
`work_done_on = n*Cv*(temperature[-1]-T1)`, zero heat. -/
def Adiabatic.run_dV (st : PState) (co : GasCoeffs) (V2 : ℝ) (s : ℕ) : Run :=
  let vol : ℕ → ℝ := fun i => linspace st.V1 V2 s i
  let temp : ℕ → ℝ := fun i => st.T1 * (st.V1 / vol i) ^ (co.gamma - 1)
  { n := st.n, Cv := co.Cv, Cp := co.Cp, T1 := st.T1, V1 := st.V1, P1 := st.P1,
    steps := s, volume := vol,
    pressure := fun i => st.P1 * (st.V1 / vol i) ^ co.gamma,
    temperature := temp,
    work_done_by := -(st.n * co.Cv * (temp (s - 1) - st.T1)),
    heat_absorbed := 0 }

/-- Embedding of `Adiabatic.generate_data_from_dP` (lines 350-355) with `V2_from_P2`
and `T2_from_P2` (lines 317-323): pressure swept linearly,
`volume = V1*(P1/P)^(1/gamma)`,
`temperature = T1*(P/P1)^((gamma-1)/gamma)`. -/
def Adiabatic.run_dP (st : PState) (co : GasCoeffs) (P2 : ℝ) (s : ℕ) : Run :=
  let press : ℕ → ℝ := fun i => linspace st.P1 P2 s i
  let temp : ℕ → ℝ := fun i =>
    st.T1 * (press i / st.P1) ^ ((co.gamma - 1) / co.gamma)
  { n := st.n, Cv := co.Cv, Cp := co.Cp, T1 := st.T1, V1 := st.V1, P1 := st.P1,
    steps := s,
    volume := fun i => st.V1 * (st.P1 / press i) ^ (1 / co.gamma),
    pressure := press, temperature := temp,
    work_done_by := -(st.n * co.Cv * (temp (s - 1) - st.T1)),
    heat_absorbed := 0 }

/-- Embedding of `Adiabatic.generate_data_from_dT` (lines 357-362) with `P2_from_T2`
and `V2_from_T2` (lines 325-331): temperature swept linearly,
`volume = V1*(T1/T)^(1/(gamma-1))`,
`pressure = P1*(T/T1)^(gamma/(gamma-1))`. -/
def Adiabatic.run_dT (st : PState) (co : GasCoeffs) (T2 : ℝ) (s : ℕ) : Run :=
  let temp : ℕ → ℝ := fun i => linspace st.T1 T2 s i
  { n := st.n, Cv := co.Cv, Cp := co.Cp, T1 := st.T1, V1 := st.V1, P1 := st.P1,
    steps := s,
    volume := fun i => st.V1 * (st.T1 / temp i) ^ (1 / (co.gamma - 1)),
    pressure := fun i => st.P1 * (temp i / st.T1) ^ (co.gamma / (co.gamma - 1)),
    temperature := temp,
    work_done_by := -(st.n * co.Cv * (temp (s - 1) - st.T1)),
    heat_absorbed := 0 }

/-- The process that `IdealGas.isothermal` (lines 422-433) creates and runs
when called with a volume target: the source instantiates
`Adiabatic(n=self.n, P1=self.P[-1], V1=self.V[-1], T1=self.T[-1], gas=...)`
(the `gas` argument is dropped by `BaseProcess.__init__`, so the
coefficients are the monatomic defaults) and calls
`generate_data_from_dV(V2=V2)`; the resulting trajectory is appended to
the running `P`, `V`, `T` history. -/
def IdealGas.isothermal_proc (n P V T V2 : ℝ) : Run :=
  Adiabatic.run_dV ⟨n, P, V, T⟩ ((BaseProcess.init false false none).1) V2 K

/-- Formula of `Carnot._calculate_alpha_beta` (lines 648-653): `alpha` by line 649,
checked only for Python truthiness (`assert self.alpha` fires exactly when
`alpha == 0`), then `beta` by line 652, checked via `beta * r > 1`. -/
def Carnot.alpha (r T_hot T_cold gamma : ℝ) : ℝ :=
  r * (T_cold / T_hot) ^ (1 / (gamma - 1))

/-- Formula `beta` from line 652. -/
def Carnot.beta (r T_hot T_cold gamma : ℝ) : ℝ :=
  1 / r * (T_hot / T_cold) ^ (1 / (gamma - 1))

/-- The assertion pipeline of `Carnot._calculate_alpha_beta`. -/
def Carnot.calculate_alpha_beta (r T_hot T_cold gamma : ℝ) :
    Option (ℝ × ℝ) :=
  if Carnot.alpha r T_hot T_cold gamma = 0 then none
  else if Carnot.beta r T_hot T_cold gamma * r ≤ 1 then none
  else some (Carnot.alpha r T_hot T_cold gamma, Carnot.beta r T_hot T_cold gamma)

/-- Carnot process 1 (lines 658-663): `Isothermal(n, V1, T1=T_hot)` with
the pressure back-filled by `_find_missing`, swept to `alpha*V1`.  The
member processes receive only the cycle's `diatomic` flag (line 661), so
their coefficients are `initCoeffs false diatomic`. -/
def Carnot.proc1 (r T_hot T_cold n V1 gamma : ℝ) (co : GasCoeffs) : Run :=
  Isothermal.run_dV ⟨n, backfillP n V1 T_hot, V1, T_hot⟩ co
    (Carnot.alpha r T_hot T_cold gamma * V1) K

/-- Start state of Carnot process 2 (lines 665-668): `Adiabatic` built from
the previous trajectory's last volume and temperature, pressure
back-filled. -/
def Carnot.st2 (r T_hot T_cold n V1 gamma : ℝ) (co : GasCoeffs) : PState :=
  let p1 := Carnot.proc1 r T_hot T_cold n V1 gamma co
  ⟨n, backfillP n (p1.volume (K - 1)) (p1.temperature (K - 1)),
    p1.volume (K - 1), p1.temperature (K - 1)⟩

/-- Carnot process 2 (line 669): adiabatic sweep to `T_cold`. -/
def Carnot.proc2 (r T_hot T_cold n V1 gamma : ℝ) (co : GasCoeffs) : Run :=
  Adiabatic.run_dT (Carnot.st2 r T_hot T_cold n V1 gamma co) co T_cold K

/-- Start state of Carnot process 3 (lines 681-684): `Isothermal` with
`V1 = adiabatic_expansion.volume[-1]` and `T1 = T_cold`. -/
def Carnot.st3 (r T_hot T_cold n V1 gamma : ℝ) (co : GasCoeffs) : PState :=
  let v3 := (Carnot.proc2 r T_hot T_cold n V1 gamma co).volume (K - 1)
  ⟨n, backfillP n v3 T_cold, v3, T_cold⟩

/-- Carnot process 3 (line 685): isothermal sweep to `beta*V3`. -/
def Carnot.proc3 (r T_hot T_cold n V1 gamma : ℝ) (co : GasCoeffs) : Run :=
  Isothermal.run_dV (Carnot.st3 r T_hot T_cold n V1 gamma co) co
    (Carnot.beta r T_hot T_cold gamma
      * (Carnot.proc2 r T_hot T_cold n V1 gamma co).volume (K - 1)) K

/-- Start state of Carnot process 4 (lines 688-691): `Adiabatic` built from
the previous trajectory's last volume and temperature. -/
def Carnot.st4 (r T_hot T_cold n V1 gamma : ℝ) (co : GasCoeffs) : PState :=
  let p3 := Carnot.proc3 r T_hot T_cold n V1 gamma co
  ⟨n, backfillP n (p3.volume (K - 1)) (p3.temperature (K - 1)),
    p3.volume (K - 1), p3.temperature (K - 1)⟩

/-- Carnot process 4 (line 692): adiabatic sweep back to `T_hot`. -/
def Carnot.proc4 (r T_hot T_cold n V1 gamma : ℝ) (co : GasCoeffs) : Run :=
  Adiabatic.run_dT (Carnot.st4 r T_hot T_cold n V1 gamma co) co T_hot K

/-- Sum of the strictly positive entries of a list
(`sum([Q for Q in l if Q > 0])`, line 534). -/
def sumPos (l : List ℝ) : ℝ := (l.map fun q => if 0 < q then q else 0).sum

/-- Sum of the strictly negative entries of a list (line 535). -/
def sumNeg (l : List ℝ) : ℝ := (l.map fun q => if q < 0 then q else 0).sum

/-- The whole `Carnot` constructor for a flag-configured gas
(`__init__`, lines 636-646, with `monatomic`/`diatomic` supplying both the
cycle's `gamma` and the member coefficients): `_find_missing` back-fills
the cycle pressure `n*R*T_hot/V1`, `_calculate_alpha_beta` runs its
assertions, `generate_processes` (lines 655-698) chains the four member
processes and asserts `|V3 - V1*r| < allowed_error` plus the three closure
residuals, and `run_cycle`/`_calculate_efficiency` (lines 531-540,
610-616) cross-checks the two efficiencies and returns their mean.
`none` models any assertion firing. -/
def Carnot.run (r T_hot T_cold n V1 gamma : ℝ) (co : GasCoeffs) : Option ℝ :=
  match Carnot.calculate_alpha_beta r T_hot T_cold gamma with
  | none => none
  | some _ =>
    let p1 := Carnot.proc1 r T_hot T_cold n V1 gamma co
    let p2 := Carnot.proc2 r T_hot T_cold n V1 gamma co
    let p3 := Carnot.proc3 r T_hot T_cold n V1 gamma co
    let p4 := Carnot.proc4 r T_hot T_cold n V1 gamma co
    if ¬ (|p2.volume (K - 1) - V1 * r| < allowed_error) then none
    else if ¬ (|p4.volume (K - 1) - V1| < allowed_error) then none
    else if ¬ (|p4.temperature (K - 1) - T_hot| < allowed_error) then none
    else if ¬ (|p4.pressure (K - 1) - backfillP n V1 T_hot| < allowed_error)
      then none
    else
      let heats : List ℝ :=
        [p1.heat_absorbed, p2.heat_absorbed, p3.heat_absorbed, p4.heat_absorbed]
      let Q_in := sumPos heats
      let Q_out := sumNeg heats
      let work_done :=
        p1.work_done_by + p2.work_done_by + p3.work_done_by + p4.work_done_by
      let effH := 1 - |Q_out / Q_in|
      let effW := |work_done / Q_in|
      if |effH - effW| < allowed_error then some ((effH + effW) / 2) else none

/-- Otto process 1 (lines 718-720): `Adiabatic(n, T1=T_cold, V1=V1)`,
pressure back-filled, swept to `alpha*V1` with `alpha = 1/r`
(lines 711-713). -/
def Otto.proc1 (r T_hot T_cold n V1 : ℝ) (co : GasCoeffs) : Run :=
  Adiabatic.run_dV ⟨n, backfillP n V1 T_cold, V1, T_cold⟩ co (1 / r * V1) K

/-- Start state of Otto process 2 (line 722): the source passes
`T1=self.T_cold` — the cycle's cold-reservoir temperature, not the
previous process's final temperature — and
`V1=adiabatic_compression.volume[-1]`. -/
def Otto.st2 (r T_hot T_cold n V1 : ℝ) (co : GasCoeffs) : PState :=
  let v2 := (Otto.proc1 r T_hot T_cold n V1 co).volume (K - 1)
  ⟨n, backfillP n v2 T_cold, v2, T_cold⟩

/-- Otto process 2 (line 723): isochoric sweep to `T_hot`. -/
def Otto.proc2 (r T_hot T_cold n V1 : ℝ) (co : GasCoeffs) : Run :=
  Isochoric.run_dT (Otto.st2 r T_hot T_cold n V1 co) co T_hot K

/-- Start state of Otto process 3 (line 726): `T1=self.T_hot`,
`V1=isochoric_heat_addition.volume[-1]`. -/
def Otto.st3 (r T_hot T_cold n V1 : ℝ) (co : GasCoeffs) : PState :=
  let v3 := (Otto.proc2 r T_hot T_cold n V1 co).volume (K - 1)
  ⟨n, backfillP n v3 T_hot, v3, T_hot⟩

/-- Otto process 3 (line 727): adiabatic sweep to `beta * V`,
`beta = r`. -/
def Otto.proc3 (r T_hot T_cold n V1 : ℝ) (co : GasCoeffs) : Run :=
  Adiabatic.run_dV (Otto.st3 r T_hot T_cold n V1 co) co
    (r * (Otto.proc2 r T_hot T_cold n V1 co).volume (K - 1)) K

/-- Start state of Otto process 4 (line 730): again `T1=self.T_hot`
rather than the previous process's final temperature. -/
def Otto.st4 (r T_hot T_cold n V1 : ℝ) (co : GasCoeffs) : PState :=
  let v4 := (Otto.proc3 r T_hot T_cold n V1 co).volume (K - 1)
  ⟨n, backfillP n v4 T_hot, v4, T_hot⟩

theorem Adiabatic.run_dV_volume (st : PState) (co : GasCoeffs) (V2 : ℝ)
    (s i : ℕ) : (Adiabatic.run_dV st co V2 s).volume i = linspace st.V1 V2 s i :=
  rfl

theorem Adiabatic.run_dV_temperature (st : PState) (co : GasCoeffs) (V2 : ℝ)
    (s i : ℕ) : (Adiabatic.run_dV st co V2 s).temperature i
      = st.T1 * (st.V1 / linspace st.V1 V2 s i) ^ (co.gamma - 1) := rfl

theorem Adiabatic.run_dV_pressure (st : PState) (co : GasCoeffs) (V2 : ℝ)
    (s i : ℕ) : (Adiabatic.run_dV st co V2 s).pressure i
      = st.P1 * (st.V1 / linspace st.V1 V2 s i) ^ co.gamma := rfl

theorem Adiabatic.run_dV_heat (st : PState) (co : GasCoeffs) (V2 : ℝ)
    (s : ℕ) : (Adiabatic.run_dV st co V2 s).heat_absorbed = 0 := rfl

theorem Adiabatic.run_dV_entropy (st : PState) (co : GasCoeffs) (V2 : ℝ)
    (s i : ℕ) : (Adiabatic.run_dV st co V2 s).entropy i
      = st.n * Real.log (linspace st.V1 V2 s i)
        + co.Cv * Real.log (st.T1 * (st.V1 / linspace st.V1 V2 s i)
            ^ (co.gamma - 1)) := rfl

theorem K_two_le : 2 ≤ K := by norm_num [K]

theorem numNone_all_some (p v t m : ℝ) :
    numNone (some p) (some v) (some t) (some m) = 0 := rfl

/-- C2, counterexample.  The source behaviour at two concrete inputs that
contradict the claim: the exactly consistent all-four state
`(P,V,T,n) = (R, 1, 1, 1)` (it satisfies `PV = nRT` so the claim says the
verification passes) is rejected by `IdealGas.find_missing_values`, while
the grossly inconsistent all-four state `(1, 1, 1, 1)` is accepted
unchanged by `BaseProcess._find_missing` with no consistency check. -/
theorem C2_counterexample :
    find_missing_values (some R) (some 1) (some 1) (some 1) = none ∧
    find_missing (some 1) (some 1) (some 1) (some 1) = some (1, 1, 1, 1) := by
  constructor
  · simp [find_missing_values, numNone]
  · simp [find_missing, numNone]

/-- C2, amended.  When fewer than three of `{P,V,T,n}` are supplied both
operations fail (the UnderspecifiedStateError side of the claim survives);
but when all four are supplied, `find_missing_values` fails
unconditionally — its exactly-one-absent assertion makes the
`|PV - nRT| < 1e-10` branch unreachable — and `_find_missing` accepts the
four values unchanged with no consistency check at all. -/
theorem C2_amended :
    (∀ P V T n : Option ℝ, 2 ≤ numNone P V T n →
      find_missing P V T n = none ∧ find_missing_values P V T n = none) ∧
    (∀ p v t m : ℝ,
      find_missing_values (some p) (some v) (some t) (some m) = none) ∧
    (∀ p v t m : ℝ,
      find_missing (some p) (some v) (some t) (some m) = some (p, v, t, m)) := by
  refine ⟨fun P V T n h => ⟨?_, ?_⟩, fun p v t m => ?_, fun p v t m => ?_⟩
  · simp [find_missing, h]
  · have hne : numNone P V T n ≠ 1 := by omega
    simp [find_missing_values, hne]
  · simp [find_missing_values, numNone]
  · simp [find_missing, numNone]

/-- Witness for C2: with only `P` supplied (an underspecified state),
both completion operations fail. -/
theorem C2_amended_witness :
    find_missing (some (1 : ℝ)) none none none = none ∧
    find_missing_values (some (1 : ℝ)) none none none = none :=
  C2_amended.1 (some 1) none none none (by norm_num [numNone])

/-- C5: `BaseProcess.__init__` never reads its `gas` argument.  With a
named substance supplied and neither flag set, the process coefficients
are the monatomic defaults `Cv = 3/2 R`, `Cp = 5/2 R`, `gamma = 5/3` —
identical to passing no gas at all — and the molar mass `M` is left
unset, contradicting the claim that they are configured from the
substance table. -/
theorem C5_theorem :
    (∀ gas : Option String,
      BaseProcess.init false false gas = (⟨3/2 * R, 5/2 * R, 5/3⟩, none)) ∧
    (BaseProcess.init false false (some ("Oxygen"))).2 = none :=
  ⟨fun _ => rfl, rfl⟩

/-- C6, counterexample.  At `r = -1`, `T_hot = 500`, `T_cold = 300`,
`gamma = 5/3` the derived `alpha` is strictly negative, so the claimed
constraint `alpha > 0` is violated; yet `_calculate_alpha_beta` succeeds,
because `assert self.alpha` only tests Python truthiness
(`alpha == 0`), and `beta * r = (5/3)^(3/2) > 1`. -/
theorem C6_counterexample :
    Carnot.alpha (-1) 500 300 (5/3) < 0 ∧
    (Carnot.calculate_alpha_beta (-1) 500 300 (5/3)).isSome = true := by
  have hexp : 1 / ((5 : ℝ)/3 - 1) = 3/2 := by norm_num
  have hx : (0 : ℝ) < ((300 : ℝ)/500) ^ ((3 : ℝ)/2) :=
    Real.rpow_pos_of_pos (by norm_num) _
  have hy : (1 : ℝ) < ((500 : ℝ)/300) ^ ((3 : ℝ)/2) := by
    rw [show ((500 : ℝ)/300) = 5/3 by norm_num]
    exact Real.one_lt_rpow_iff_of_pos (by norm_num) |>.mpr
      (Or.inl ⟨by norm_num, by norm_num⟩)
  have halpha : Carnot.alpha (-1) 500 300 (5/3)
      = -(((300 : ℝ)/500) ^ ((3 : ℝ)/2)) := by
    rw [Carnot.alpha, hexp]; ring
  have hbr : Carnot.beta (-1) 500 300 (5/3) * (-1)
      = ((500 : ℝ)/300) ^ ((3 : ℝ)/2) := by
    rw [Carnot.beta, hexp]; ring
  refine ⟨by rw [halpha]; linarith, ?_⟩
  rw [Carnot.calculate_alpha_beta, if_neg (by rw [halpha]; linarith),
    if_neg (by rw [hbr]; push_neg; linarith)]
  rfl

/-- C6, amended.  `_calculate_alpha_beta` fails exactly when `alpha = 0`
(Python truthiness of `assert self.alpha`, not the claimed `alpha > 0`)
or when `beta * r ≤ 1`; only the first failure message reports the
minimum valid compression ratio. -/
theorem C6_amended (r T_hot T_cold gamma : ℝ) :
    Carnot.calculate_alpha_beta r T_hot T_cold gamma = none ↔
      (Carnot.alpha r T_hot T_cold gamma = 0 ∨
        Carnot.beta r T_hot T_cold gamma * r ≤ 1) := by
  unfold Carnot.calculate_alpha_beta
  split_ifs with h1 h2
  · simp [h1]
  · simp [h2]
  · simp [h1, h2]

/-- C1: calling the named transition `isothermal` on the `IdealGas`
façade from the state `(P,V,T,n) = (R*300, 1, 300, 1)` with the single
volume target `V2 = 2` appends a trajectory whose final temperature is
`300 * (1/2)^(2/3) ≠ 300`: the method instantiates an `Adiabatic` process,
so the appended segment is not isothermal. -/
theorem C1_theorem :
    (IdealGas.isothermal_proc 1 (R * 300) 1 300 2).temperature (K - 1)
      ≠ 300 := by
  have hco : (BaseProcess.init false false none).1.gamma = 5/3 := rfl
  have htemp : (IdealGas.isothermal_proc 1 (R * 300) 1 300 2).temperature (K - 1)
      = 300 * ((1 : ℝ) / linspace 1 2 K (K - 1)) ^ ((5 : ℝ)/3 - 1) := by
    rw [IdealGas.isothermal_proc, Adiabatic.run_dV_temperature, hco]
  rw [htemp, linspace_last 1 2 K_two_le]
  have hexp : (5 : ℝ)/3 - 1 = 2/3 := by norm_num
  rw [hexp]
  have hpow : ((1 : ℝ)/2) ^ ((2 : ℝ)/3) < 1 :=
    Real.rpow_lt_one (by norm_num) (by norm_num) (by norm_num)
  have hlt : 300 * ((1 : ℝ)/2) ^ ((2 : ℝ)/3) < 300 := by nlinarith
  exact ne_of_lt hlt

/-- C10: on the adiabatic run with `n = 1` mol, monatomic coefficients,
`V1 = 1`, `T1 = 300`, swept to `V2 = 2`, the heat absorbed is zero, yet
the entropy array computed by `n*log(volume) + Cv*log(temperature)` is not
constant: its last entry differs from its first by
`(1 - R) * log 2 ≠ 0`. -/
theorem C10_theorem :
    (Adiabatic.run_dV ⟨1, R * 300, 1, 300⟩ (initCoeffs true false) 2 K).heat_absorbed
      = 0 ∧
    (Adiabatic.run_dV ⟨1, R * 300, 1, 300⟩ (initCoeffs true false) 2 K).entropy
        (K - 1)
      ≠ (Adiabatic.run_dV ⟨1, R * 300, 1, 300⟩ (initCoeffs true false) 2 K).entropy
        0 := by
  refine ⟨rfl, ?_⟩
  have hCv : (initCoeffs true false).Cv = 3/2 * R := rfl
  have hgam : (initCoeffs true false).gamma = 5/3 := rfl
  rw [Adiabatic.run_dV_entropy, Adiabatic.run_dV_entropy, hCv, hgam,
    linspace_last 1 2 K_two_le, linspace_zero]
  have hexp : (5 : ℝ)/3 - 1 = 2/3 := by norm_num
  rw [hexp]
  have h11 : (1 : ℝ)/1 = 1 := by norm_num
  rw [h11, Real.one_rpow, mul_one]
  have hpow_pos : (0 : ℝ) < ((1 : ℝ)/2) ^ ((2 : ℝ)/3) :=
    Real.rpow_pos_of_pos (by norm_num) _
  have hlogmul : Real.log (300 * ((1 : ℝ)/2) ^ ((2 : ℝ)/3))
      = Real.log 300 + (2 : ℝ)/3 * Real.log (1/2) := by
    rw [Real.log_mul (by norm_num) (ne_of_gt hpow_pos),
      Real.log_rpow (by norm_num)]
  rw [hlogmul]
  have hhalf : Real.log ((1 : ℝ)/2) = -Real.log 2 := by
    rw [one_div, Real.log_inv]
  rw [hhalf]
  have hl2 : 0 < Real.log 2 := Real.log_pos (by norm_num)
  intro heq
  have h0 : (1 - R) * Real.log 2 = 0 := by
    rw [Real.log_one] at heq
    linear_combination heq
  exact (mul_ne_zero (by norm_num [R]) (ne_of_gt hl2)) h0

/-- The round-trip scenario of the spec: an adiabatic process driven from
`V1` to `V2`, followed by a second adiabatic process constructed from the
first one's final trajectory point and driven from `V2` back to `V1`. -/
def Adiabatic.roundTrip (n P1 V1 T1 V2 : ℝ) (co : GasCoeffs) (s : ℕ) : Run :=
  let r1 := Adiabatic.run_dV ⟨n, P1, V1, T1⟩ co V2 s
  Adiabatic.run_dV
    ⟨n, r1.pressure (s - 1), r1.volume (s - 1), r1.temperature (s - 1)⟩
    co V1 s

theorem R_pos : (0 : ℝ) < R := by norm_num [R]

theorem abs_zero_lt_allowed : |(0 : ℝ)| < allowed_error := by
  rw [abs_zero]; norm_num [allowed_error]

theorem R_ne : R ≠ 0 := ne_of_gt R_pos

/-- C9: for every valid start state (positive volumes), the adiabatic
round trip `V1 → V2 → V1` returns pressure and temperature to their
original values (exactly, in the real-number model, hence within
`allowed_error`). -/
theorem C9_theorem (n P1 V1 T1 V2 : ℝ) (co : GasCoeffs) (s : ℕ)
    (hV1 : 0 < V1) (hV2 : 0 < V2) (hs : 2 ≤ s) :
    |(Adiabatic.roundTrip n P1 V1 T1 V2 co s).pressure (s - 1) - P1|
        < allowed_error ∧
    |(Adiabatic.roundTrip n P1 V1 T1 V2 co s).temperature (s - 1) - T1|
        < allowed_error := by
  have hlast1 : linspace V1 V2 s (s - 1) = V2 := linspace_last _ _ hs
  have hlast2 : linspace V2 V1 s (s - 1) = V1 := linspace_last _ _ hs
  have hkey : ∀ e : ℝ, (V1 / V2) ^ e * (V2 / V1) ^ e = 1 := fun e => by
    rw [← Real.mul_rpow (by positivity) (by positivity),
      show V1 / V2 * (V2 / V1) = 1 by field_simp, Real.one_rpow]
  constructor
  · have hp : (Adiabatic.roundTrip n P1 V1 T1 V2 co s).pressure (s - 1)
        = P1 := by
      simp only [Adiabatic.roundTrip, Adiabatic.run_dV_pressure,
        Adiabatic.run_dV_volume, hlast1, hlast2]
      rw [mul_assoc, hkey co.gamma, mul_one]
    rw [hp, sub_self]; exact abs_zero_lt_allowed
  · have ht : (Adiabatic.roundTrip n P1 V1 T1 V2 co s).temperature (s - 1)
        = T1 := by
      simp only [Adiabatic.roundTrip, Adiabatic.run_dV_temperature,
        Adiabatic.run_dV_volume, hlast1, hlast2]
      rw [mul_assoc, hkey (co.gamma - 1), mul_one]
    rw [ht, sub_self]; exact abs_zero_lt_allowed

/-- Witness for C9 at a concrete input. -/
theorem C9_witness :
    |(Adiabatic.roundTrip 1 (R * 300) 1 300 2 (initCoeffs true false) K).pressure
        (K - 1) - R * 300| < allowed_error ∧
    |(Adiabatic.roundTrip 1 (R * 300) 1 300 2 (initCoeffs true false) K).temperature
        (K - 1) - 300| < allowed_error :=
  C9_theorem 1 (R * 300) 1 300 2 (initCoeffs true false) K
    (by norm_num) (by norm_num) K_two_le

theorem initCoeffs_gamma_ne (m d : Bool) :
    (initCoeffs m d).gamma ≠ 0 ∧ (initCoeffs m d).gamma ≠ 1 := by
  cases m <;> cases d <;> norm_num [initCoeffs]

theorem initCoeffs_CpCv (m d : Bool) :
    (initCoeffs m d).Cp - (initCoeffs m d).Cv = R := by
  cases m <;> cases d <;> simp [initCoeffs] <;> ring

theorem igl_isothermal_dV (st : PState) (co : GasCoeffs) (V2 : ℝ) (s : ℕ)
    (hV1 : 0 < st.V1) (hV2 : 0 < V2) (hs : 2 ≤ s) :
    (Isothermal.run_dV st co V2 s).is_ideal_gas := by
  intro i hi
  have hv : 0 < linspace st.V1 V2 s i := linspace_pos hV1 hV2 hs hi
  have hres : (Isothermal.run_dV st co V2 s).ideal_gas_law_consistency i
      = st.n * R * st.T1 / linspace st.V1 V2 s i * linspace st.V1 V2 s i
        - st.n * R * st.T1 := rfl
  rw [hres, div_mul_cancel₀ _ (ne_of_gt hv), sub_self]
  exact abs_zero_lt_allowed

theorem igl_isothermal_dP (st : PState) (co : GasCoeffs) (P2 : ℝ) (s : ℕ)
    (hP1 : 0 < st.P1) (hP2 : 0 < P2) (hs : 2 ≤ s) :
    (Isothermal.run_dP st co P2 s).is_ideal_gas := by
  intro i hi
  have hp : 0 < linspace st.P1 P2 s i := linspace_pos hP1 hP2 hs hi
  have hres : (Isothermal.run_dP st co P2 s).ideal_gas_law_consistency i
      = linspace st.P1 P2 s i
          * (st.n * R * st.T1 / linspace st.P1 P2 s i)
        - st.n * R * st.T1 := rfl
  rw [hres, mul_div_cancel₀ _ (ne_of_gt hp), sub_self]
  exact abs_zero_lt_allowed

theorem igl_isobaric_dV (st : PState) (co : GasCoeffs) (V2 : ℝ) (s : ℕ)
    (hn : st.n ≠ 0) :
    (Isobaric.run_dV st co V2 s).is_ideal_gas := by
  intro i hi
  have hres : (Isobaric.run_dV st co V2 s).ideal_gas_law_consistency i
      = st.P1 * linspace st.V1 V2 s i
        - st.n * R * (st.P1 * linspace st.V1 V2 s i / (st.n * R)) := rfl
  rw [hres, mul_div_cancel₀ _ (mul_ne_zero hn (ne_of_gt R_pos)), sub_self]
  exact abs_zero_lt_allowed

theorem igl_isobaric_dT (st : PState) (co : GasCoeffs) (T2 : ℝ) (s : ℕ)
    (hP1 : st.P1 ≠ 0) :
    (Isobaric.run_dT st co T2 s).is_ideal_gas := by
  intro i hi
  have hres : (Isobaric.run_dT st co T2 s).ideal_gas_law_consistency i
      = st.P1 * (st.n * R * linspace st.T1 T2 s i / st.P1)
        - st.n * R * linspace st.T1 T2 s i := rfl
  rw [hres, mul_div_cancel₀ _ hP1, sub_self]
  exact abs_zero_lt_allowed

theorem igl_isochoric_dT (st : PState) (co : GasCoeffs) (T2 : ℝ) (s : ℕ)
    (hV1 : st.V1 ≠ 0) :
    (Isochoric.run_dT st co T2 s).is_ideal_gas := by
  intro i hi
  have hres : (Isochoric.run_dT st co T2 s).ideal_gas_law_consistency i
      = st.n * R * linspace st.T1 T2 s i / st.V1 * st.V1
        - st.n * R * linspace st.T1 T2 s i := rfl
  rw [hres, div_mul_cancel₀ _ hV1, sub_self]
  exact abs_zero_lt_allowed

theorem igl_isochoric_dP (st : PState) (co : GasCoeffs) (P2 : ℝ) (s : ℕ)
    (hn : st.n ≠ 0) :
    (Isochoric.run_dP st co P2 s).is_ideal_gas := by
  intro i hi
  have hres : (Isochoric.run_dP st co P2 s).ideal_gas_law_consistency i
      = linspace st.P1 P2 s i * st.V1
        - st.n * R * (linspace st.P1 P2 s i * st.V1 / (st.n * R)) := rfl
  rw [hres, mul_div_cancel₀ _ (mul_ne_zero hn (ne_of_gt R_pos)), sub_self]
  exact abs_zero_lt_allowed

theorem igl_adiabatic_dV (st : PState) (co : GasCoeffs) (V2 : ℝ) (s : ℕ)
    (hV1 : 0 < st.V1) (hV2 : 0 < V2) (hs : 2 ≤ s)
    (hc : st.P1 * st.V1 = st.n * R * st.T1) :
    (Adiabatic.run_dV st co V2 s).is_ideal_gas := by
  intro i hi
  have hv : 0 < linspace st.V1 V2 s i := linspace_pos hV1 hV2 hs hi
  set v := linspace st.V1 V2 s i with hvdef
  have hx : 0 < st.V1 / v := by positivity
  have hres : (Adiabatic.run_dV st co V2 s).ideal_gas_law_consistency i
      = st.P1 * (st.V1 / v) ^ co.gamma * v
        - st.n * R * (st.T1 * (st.V1 / v) ^ (co.gamma - 1)) := rfl
  have hsplit : (st.V1 / v) ^ co.gamma
      = (st.V1 / v) ^ (co.gamma - 1) * (st.V1 / v) := by
    rw [← Real.rpow_add_one (ne_of_gt hx) (co.gamma - 1), sub_add_cancel]
  have hxv : st.V1 / v * v = st.V1 := div_mul_cancel₀ _ (ne_of_gt hv)
  rw [hres, hsplit]
  have hzero : st.P1 * ((st.V1 / v) ^ (co.gamma - 1) * (st.V1 / v)) * v
      - st.n * R * (st.T1 * (st.V1 / v) ^ (co.gamma - 1)) = 0 := by
    linear_combination st.P1 * (st.V1 / v) ^ (co.gamma - 1) * hxv
      + (st.V1 / v) ^ (co.gamma - 1) * hc
  rw [hzero]
  exact abs_zero_lt_allowed

theorem igl_adiabatic_dP (st : PState) (co : GasCoeffs) (P2 : ℝ) (s : ℕ)
    (hP1 : 0 < st.P1) (hP2 : 0 < P2) (hs : 2 ≤ s)
    (hgam : co.gamma ≠ 0)
    (hc : st.P1 * st.V1 = st.n * R * st.T1) :
    (Adiabatic.run_dP st co P2 s).is_ideal_gas := by
  intro i hi
  have hp : 0 < linspace st.P1 P2 s i := linspace_pos hP1 hP2 hs hi
  set p := linspace st.P1 P2 s i with hpdef
  have ha : 0 < p / st.P1 := by positivity
  have hres : (Adiabatic.run_dP st co P2 s).ideal_gas_law_consistency i
      = p * (st.V1 * (st.P1 / p) ^ (1 / co.gamma))
        - st.n * R
          * (st.T1 * (p / st.P1) ^ ((co.gamma - 1) / co.gamma)) := rfl
  have hc1 : (st.P1 / p) ^ (1 / co.gamma)
      = ((p / st.P1) ^ (1 / co.gamma))⁻¹ := by
    rw [show st.P1 / p = (p / st.P1)⁻¹ by rw [inv_div],
      Real.inv_rpow (le_of_lt ha), inv_eq_one_div, one_div]
  have hd1 : (p / st.P1) ^ ((co.gamma - 1) / co.gamma)
      = p / st.P1 * ((p / st.P1) ^ (1 / co.gamma))⁻¹ := by
    rw [show (co.gamma - 1) / co.gamma = 1 + -(1 / co.gamma) by
      field_simp <;> ring]
    rw [Real.rpow_add ha, Real.rpow_one,
      Real.rpow_neg (le_of_lt ha)]
  rw [hres, hc1, hd1]
  set b := ((p / st.P1) ^ (1 / co.gamma))⁻¹ with hbdef
  have hzero : p * (st.V1 * b)
      - st.n * R * (st.T1 * (p / st.P1 * b)) = 0 := by
    field_simp
    linear_combination (p * b) * hc
  rw [hzero]
  exact abs_zero_lt_allowed

theorem igl_adiabatic_dT (st : PState) (co : GasCoeffs) (T2 : ℝ) (s : ℕ)
    (hT1 : 0 < st.T1) (hT2 : 0 < T2) (hs : 2 ≤ s)
    (hgam : co.gamma ≠ 1)
    (hc : st.P1 * st.V1 = st.n * R * st.T1) :
    (Adiabatic.run_dT st co T2 s).is_ideal_gas := by
  intro i hi
  have ht : 0 < linspace st.T1 T2 s i := linspace_pos hT1 hT2 hs hi
  set t := linspace st.T1 T2 s i with htdef
  have hu : 0 < t / st.T1 := by positivity
  have hune : (t / st.T1) ^ (1 / (co.gamma - 1)) ≠ 0 :=
    ne_of_gt (Real.rpow_pos_of_pos hu _)
  have hres : (Adiabatic.run_dT st co T2 s).ideal_gas_law_consistency i
      = st.P1 * (t / st.T1) ^ (co.gamma / (co.gamma - 1))
          * (st.V1 * (st.T1 / t) ^ (1 / (co.gamma - 1)))
        - st.n * R * t := rfl
  have hc1 : (st.T1 / t) ^ (1 / (co.gamma - 1))
      = ((t / st.T1) ^ (1 / (co.gamma - 1)))⁻¹ := by
    rw [show st.T1 / t = (t / st.T1)⁻¹ by rw [inv_div],
      Real.inv_rpow (le_of_lt hu)]
  have hd1 : (t / st.T1) ^ (co.gamma / (co.gamma - 1))
      = t / st.T1 * (t / st.T1) ^ (1 / (co.gamma - 1)) := by
    rw [show co.gamma / (co.gamma - 1) = 1 + 1 / (co.gamma - 1) by
      have h1 : co.gamma - 1 ≠ 0 := sub_ne_zero.mpr hgam
      field_simp]
    rw [Real.rpow_add hu, Real.rpow_one]
  rw [hres, hc1, hd1]
  set b := (t / st.T1) ^ (1 / (co.gamma - 1)) with hbdef
  have hzero : st.P1 * (t / st.T1 * b) * (st.V1 * b⁻¹)
      - st.n * R * t = 0 := by
    field_simp
    linear_combination t * b * hc
  rw [hzero]
  exact abs_zero_lt_allowed

/-- C7: for every flag-configured process state `(n, P1, V1, T1)` that
satisfies the ideal gas law (as every state completed by `_find_missing`
does), each of the nine variant-specific trajectory generators produces a
trajectory on which every index satisfies
`|pressure*volume - n*R*temperature| < allowed_error` — in the real-number
model the residual is exactly zero — so `is_ideal_gas()` holds. -/
theorem C7_theorem (m d : Bool) (n P1 V1 T1 V2 P2 T2 : ℝ) (s : ℕ)
    (hn : 0 < n) (hP1 : 0 < P1) (hV1 : 0 < V1) (hT1 : 0 < T1)
    (hV2 : 0 < V2) (hP2 : 0 < P2) (hT2 : 0 < T2) (hs : 2 ≤ s)
    (hc : P1 * V1 = n * R * T1) :
    (Isothermal.run_dV ⟨n, P1, V1, T1⟩ (initCoeffs m d) V2 s).is_ideal_gas ∧
    (Isothermal.run_dP ⟨n, P1, V1, T1⟩ (initCoeffs m d) P2 s).is_ideal_gas ∧
    (Isobaric.run_dV ⟨n, P1, V1, T1⟩ (initCoeffs m d) V2 s).is_ideal_gas ∧
    (Isobaric.run_dT ⟨n, P1, V1, T1⟩ (initCoeffs m d) T2 s).is_ideal_gas ∧
    (Isochoric.run_dT ⟨n, P1, V1, T1⟩ (initCoeffs m d) T2 s).is_ideal_gas ∧
    (Isochoric.run_dP ⟨n, P1, V1, T1⟩ (initCoeffs m d) P2 s).is_ideal_gas ∧
    (Adiabatic.run_dV ⟨n, P1, V1, T1⟩ (initCoeffs m d) V2 s).is_ideal_gas ∧
    (Adiabatic.run_dP ⟨n, P1, V1, T1⟩ (initCoeffs m d) P2 s).is_ideal_gas ∧
    (Adiabatic.run_dT ⟨n, P1, V1, T1⟩ (initCoeffs m d) T2 s).is_ideal_gas := by
  refine ⟨?_, ?_, ?_, ?_, ?_, ?_, ?_, ?_, ?_⟩
  · exact igl_isothermal_dV _ _ _ _ hV1 hV2 hs
  · exact igl_isothermal_dP _ _ _ _ hP1 hP2 hs
  · exact igl_isobaric_dV _ _ _ _ (ne_of_gt hn)
  · exact igl_isobaric_dT _ _ _ _ (ne_of_gt hP1)
  · exact igl_isochoric_dT _ _ _ _ (ne_of_gt hV1)
  · exact igl_isochoric_dP _ _ _ _ (ne_of_gt hn)
  · exact igl_adiabatic_dV _ _ _ _ hV1 hV2 hs hc
  · exact igl_adiabatic_dP _ _ _ _ hP1 hP2 hs (initCoeffs_gamma_ne m d).1 hc
  · exact igl_adiabatic_dT _ _ _ _ hT1 hT2 hs (initCoeffs_gamma_ne m d).2 hc

/-- Witness for C7 at a concrete monatomic state. -/
theorem C7_witness :
    |(Adiabatic.run_dV ⟨1, R * 300, 1, 300⟩ (initCoeffs true false)
        2 K).ideal_gas_law_consistency 5| < allowed_error :=
  (C7_theorem true false 1 (R * 300) 1 300 2 (R * 600) 400 K
      (by norm_num) (by norm_num [R]) (by norm_num) (by norm_num)
      (by norm_num) (by norm_num [R]) (by norm_num) K_two_le
      (by ring)).2.2.2.2.2.2.1 5 (by show 5 < K; norm_num [K])

theorem flc_isothermal_dV (st : PState) (co : GasCoeffs) (V2 : ℝ) (s : ℕ) :
    (Isothermal.run_dV st co V2 s).first_law_consistency = 0 := by
  show -(Isothermal.run_dV st co V2 s).work_done_by
      + (Isothermal.run_dV st co V2 s).work_done_by
      - co.Cv * st.n * st.T1 + co.Cv * st.n * st.T1 = 0
  ring

theorem flc_isothermal_dP (st : PState) (co : GasCoeffs) (P2 : ℝ) (s : ℕ) :
    (Isothermal.run_dP st co P2 s).first_law_consistency = 0 := by
  show -(Isothermal.run_dP st co P2 s).work_done_by
      + (Isothermal.run_dP st co P2 s).work_done_by
      - co.Cv * st.n * st.T1 + co.Cv * st.n * st.T1 = 0
  ring

theorem flc_isochoric_dT (st : PState) (co : GasCoeffs) (T2 : ℝ) (s : ℕ) :
    (Isochoric.run_dT st co T2 s).first_law_consistency = 0 := by
  have h : (Isochoric.run_dT st co T2 s).first_law_consistency
      = -0 + st.n * co.Cv * (linspace st.T1 T2 s (s - 1) - st.T1)
        - co.Cv * st.n * linspace st.T1 T2 s (s - 1)
        + co.Cv * st.n * linspace st.T1 T2 s 0 := rfl
  rw [h, linspace_zero]; ring

theorem flc_isochoric_dP (st : PState) (co : GasCoeffs) (P2 : ℝ) (s : ℕ)
    (hn : st.n ≠ 0)
    (hc : st.P1 * st.V1 = st.n * R * st.T1) :
    (Isochoric.run_dP st co P2 s).first_law_consistency = 0 := by
  have h : (Isochoric.run_dP st co P2 s).first_law_consistency
      = -0 + st.n * co.Cv
            * (linspace st.P1 P2 s (s - 1) * st.V1 / (st.n * R) - st.T1)
        - co.Cv * st.n * (linspace st.P1 P2 s (s - 1) * st.V1 / (st.n * R))
        + co.Cv * st.n * (linspace st.P1 P2 s 0 * st.V1 / (st.n * R)) := rfl
  have hB : st.P1 * st.V1 / (st.n * R) = st.T1 := by
    field_simp [R_ne]
    linear_combination hc
  rw [h, linspace_zero, hB]
  ring

theorem flc_isobaric_dV (st : PState) (co : GasCoeffs) (V2 : ℝ) (s : ℕ)
    (hn : st.n ≠ 0)
    (hCpCv : co.Cp - co.Cv = R)
    (hc : st.P1 * st.V1 = st.n * R * st.T1) :
    (Isobaric.run_dV st co V2 s).first_law_consistency = 0 := by
  have h : (Isobaric.run_dV st co V2 s).first_law_consistency
      = -(st.P1 * (linspace st.V1 V2 s (s - 1) - st.V1))
        + st.n * co.Cp
            * (st.P1 * linspace st.V1 V2 s (s - 1) / (st.n * R) - st.T1)
        - co.Cv * st.n * (st.P1 * linspace st.V1 V2 s (s - 1) / (st.n * R))
        + co.Cv * st.n * (st.P1 * linspace st.V1 V2 s 0 / (st.n * R)) := rfl
  have hB : st.P1 * st.V1 / (st.n * R) = st.T1 := by
    field_simp [R_ne]
    linear_combination hc
  have hA : st.P1 * linspace st.V1 V2 s (s - 1) / (st.n * R) * (st.n * R)
      = st.P1 * linspace st.V1 V2 s (s - 1) :=
    div_mul_cancel₀ _ (mul_ne_zero hn R_ne)
  rw [h, linspace_zero, hB]
  linear_combination hc + hA
    + (st.n * (st.P1 * linspace st.V1 V2 s (s - 1) / (st.n * R))
        - st.n * st.T1) * hCpCv

theorem flc_isobaric_dT (st : PState) (co : GasCoeffs) (T2 : ℝ) (s : ℕ)
    (hP1 : st.P1 ≠ 0)
    (hCpCv : co.Cp - co.Cv = R)
    (hc : st.P1 * st.V1 = st.n * R * st.T1) :
    (Isobaric.run_dT st co T2 s).first_law_consistency = 0 := by
  have h : (Isobaric.run_dT st co T2 s).first_law_consistency
      = -(st.P1 * (st.n * R * linspace st.T1 T2 s (s - 1) / st.P1 - st.V1))
        + st.n * co.Cp * (linspace st.T1 T2 s (s - 1) - st.T1)
        - co.Cv * st.n * linspace st.T1 T2 s (s - 1)
        + co.Cv * st.n * linspace st.T1 T2 s 0 := rfl
  have hD : st.P1 * (st.n * R * linspace st.T1 T2 s (s - 1) / st.P1)
      = st.n * R * linspace st.T1 T2 s (s - 1) :=
    mul_div_cancel₀ _ hP1
  rw [h, linspace_zero, mul_sub, hD]
  linear_combination hc
    + (st.n * linspace st.T1 T2 s (s - 1) - st.n * st.T1) * hCpCv

theorem flc_adiabatic_dV (st : PState) (co : GasCoeffs) (V2 : ℝ) (s : ℕ)
    (hV1 : st.V1 ≠ 0) :
    (Adiabatic.run_dV st co V2 s).first_law_consistency = 0 := by
  have h : (Adiabatic.run_dV st co V2 s).first_law_consistency
      = -(-(st.n * co.Cv
            * (st.T1 * (st.V1 / linspace st.V1 V2 s (s - 1)) ^ (co.gamma - 1)
              - st.T1)))
        + 0
        - co.Cv * st.n
            * (st.T1 * (st.V1 / linspace st.V1 V2 s (s - 1)) ^ (co.gamma - 1))
        + co.Cv * st.n
            * (st.T1 * (st.V1 / linspace st.V1 V2 s 0) ^ (co.gamma - 1)) := rfl
  rw [h, linspace_zero, div_self hV1, Real.one_rpow]
  ring

theorem flc_adiabatic_dP (st : PState) (co : GasCoeffs) (P2 : ℝ) (s : ℕ)
    (hP1 : st.P1 ≠ 0) :
    (Adiabatic.run_dP st co P2 s).first_law_consistency = 0 := by
  have h : (Adiabatic.run_dP st co P2 s).first_law_consistency
      = -(-(st.n * co.Cv
            * (st.T1 * (linspace st.P1 P2 s (s - 1) / st.P1)
                  ^ ((co.gamma - 1) / co.gamma)
              - st.T1)))
        + 0
        - co.Cv * st.n
            * (st.T1 * (linspace st.P1 P2 s (s - 1) / st.P1)
                  ^ ((co.gamma - 1) / co.gamma))
        + co.Cv * st.n
            * (st.T1 * (linspace st.P1 P2 s 0 / st.P1)
                  ^ ((co.gamma - 1) / co.gamma)) := rfl
  rw [h, linspace_zero, div_self hP1, Real.one_rpow]
  ring

theorem flc_adiabatic_dT (st : PState) (co : GasCoeffs) (T2 : ℝ) (s : ℕ) :
    (Adiabatic.run_dT st co T2 s).first_law_consistency = 0 := by
  have h : (Adiabatic.run_dT st co T2 s).first_law_consistency
      = -(-(st.n * co.Cv * (linspace st.T1 T2 s (s - 1) - st.T1)))
        + 0
        - co.Cv * st.n * linspace st.T1 T2 s (s - 1)
        + co.Cv * st.n * linspace st.T1 T2 s 0 := rfl
  rw [h, linspace_zero]
  ring

/-- C8: for every flag-configured process whose completed initial state
satisfies the ideal gas law, each of the nine variant-specific trajectory
generators yields a zero first-law residual
`work_done_on + heat_absorbed - (U_end - U_start)`, so
`is_first_law_satisfied()` holds. -/
theorem C8_theorem (m d : Bool) (n P1 V1 T1 V2 P2 T2 : ℝ) (s : ℕ)
    (hn : 0 < n) (hP1 : 0 < P1) (hV1 : 0 < V1)
    (hc : P1 * V1 = n * R * T1) :
    (Isothermal.run_dV ⟨n, P1, V1, T1⟩ (initCoeffs m d) V2 s).is_first_law_satisfied ∧
    (Isothermal.run_dP ⟨n, P1, V1, T1⟩ (initCoeffs m d) P2 s).is_first_law_satisfied ∧
    (Isobaric.run_dV ⟨n, P1, V1, T1⟩ (initCoeffs m d) V2 s).is_first_law_satisfied ∧
    (Isobaric.run_dT ⟨n, P1, V1, T1⟩ (initCoeffs m d) T2 s).is_first_law_satisfied ∧
    (Isochoric.run_dT ⟨n, P1, V1, T1⟩ (initCoeffs m d) T2 s).is_first_law_satisfied ∧
    (Isochoric.run_dP ⟨n, P1, V1, T1⟩ (initCoeffs m d) P2 s).is_first_law_satisfied ∧
    (Adiabatic.run_dV ⟨n, P1, V1, T1⟩ (initCoeffs m d) V2 s).is_first_law_satisfied ∧
    (Adiabatic.run_dP ⟨n, P1, V1, T1⟩ (initCoeffs m d) P2 s).is_first_law_satisfied ∧
    (Adiabatic.run_dT ⟨n, P1, V1, T1⟩ (initCoeffs m d) T2 s).is_first_law_satisfied := by
  have hCpCv := initCoeffs_CpCv m d
  refine ⟨?_, ?_, ?_, ?_, ?_, ?_, ?_, ?_, ?_⟩ <;>
    unfold Run.is_first_law_satisfied
  · rw [flc_isothermal_dV]; exact abs_zero_lt_allowed
  · rw [flc_isothermal_dP]; exact abs_zero_lt_allowed
  · rw [flc_isobaric_dV _ _ _ _ (ne_of_gt hn) hCpCv hc]
    exact abs_zero_lt_allowed
  · rw [flc_isobaric_dT _ _ _ _ (ne_of_gt hP1) hCpCv hc]
    exact abs_zero_lt_allowed
  · rw [flc_isochoric_dT]; exact abs_zero_lt_allowed
  · rw [flc_isochoric_dP _ _ _ _ (ne_of_gt hn) hc]
    exact abs_zero_lt_allowed
  · rw [flc_adiabatic_dV _ _ _ _ (ne_of_gt hV1)]
    exact abs_zero_lt_allowed
  · rw [flc_adiabatic_dP _ _ _ _ (ne_of_gt hP1)]
    exact abs_zero_lt_allowed
  · rw [flc_adiabatic_dT]; exact abs_zero_lt_allowed

/-- Witness for C8 at a concrete monatomic state. -/
theorem C8_witness :
    (Isobaric.run_dV ⟨1, R * 300, 1, 300⟩ (initCoeffs true false)
        2 K).is_first_law_satisfied :=
  (C8_theorem true false 1 (R * 300) 1 300 2 (R * 600) 400 K
      (by norm_num) (by norm_num [R]) (by norm_num) (by ring)).2.2.1

theorem linspace_last_K (a b : ℝ) : linspace a b K (K - 1) = b :=
  linspace_last a b K_two_le

/-- C4: in the Otto cycle with `compression_ratio = 8`, `T_cold = 300`,
`T_hot = 1500`, `n = 1`, `V1 = 1` and monatomic members, the start
temperature of process 2 (the isochoric heat addition, constructed with
`T1 = self.T_cold = 300`) differs from the final temperature of process 1
(the adiabatic compression, which ends at `300 * 8^(2/3) = 1200 K`): the
chain rule claimed for every cycle is broken at this junction. -/
theorem C4_theorem :
    (Otto.st2 8 1500 300 1 1 (initCoeffs false false)).T1
      ≠ (Otto.proc1 8 1500 300 1 1 (initCoeffs false false)).temperature
        (K - 1) := by
  have htemp : (Otto.proc1 8 1500 300 1 1 (initCoeffs false false)).temperature
      (K - 1)
      = 300 * ((1 : ℝ) / linspace 1 (1/8 * 1) K (K - 1)) ^ ((5 : ℝ)/3 - 1) :=
    rfl
  have hT1 : (Otto.st2 8 1500 300 1 1 (initCoeffs false false)).T1 = 300 := rfl
  rw [hT1, htemp, linspace_last_K,
    show (1 : ℝ) / ((1 : ℝ)/8 * 1) = 8 by norm_num,
    show (5 : ℝ)/3 - 1 = 2/3 by norm_num]
  have h8 : (1 : ℝ) < (8 : ℝ) ^ ((2 : ℝ)/3) :=
    (Real.one_lt_rpow_iff_of_pos (by norm_num)).mpr
      (Or.inl ⟨by norm_num, by norm_num⟩)
  exact ne_of_lt (by nlinarith [h8])

theorem Isothermal.run_dV_vol (st : PState) (co : GasCoeffs) (V2 : ℝ)
    (s i : ℕ) :
    (Isothermal.run_dV st co V2 s).volume i = linspace st.V1 V2 s i := rfl

theorem Isothermal.run_dV_temp (st : PState) (co : GasCoeffs) (V2 : ℝ)
    (s i : ℕ) :
    (Isothermal.run_dV st co V2 s).temperature i = st.T1 := rfl

theorem Isothermal.run_dV_heatAbs (st : PState) (co : GasCoeffs) (V2 : ℝ)
    (s : ℕ) :
    (Isothermal.run_dV st co V2 s).heat_absorbed
      = R * st.n * st.T1 * Real.log (linspace st.V1 V2 s (s - 1) / st.V1) :=
  rfl

theorem Isothermal.run_dV_work (st : PState) (co : GasCoeffs) (V2 : ℝ)
    (s : ℕ) :
    (Isothermal.run_dV st co V2 s).work_done_by
      = R * st.n * st.T1 * Real.log (linspace st.V1 V2 s (s - 1) / st.V1) :=
  rfl

theorem Adiabatic.run_dT_volume (st : PState) (co : GasCoeffs) (T2 : ℝ)
    (s i : ℕ) :
    (Adiabatic.run_dT st co T2 s).volume i
      = st.V1 * (st.T1 / linspace st.T1 T2 s i) ^ (1 / (co.gamma - 1)) := rfl

theorem Adiabatic.run_dT_pressure (st : PState) (co : GasCoeffs) (T2 : ℝ)
    (s i : ℕ) :
    (Adiabatic.run_dT st co T2 s).pressure i
      = st.P1 * (linspace st.T1 T2 s i / st.T1) ^ (co.gamma / (co.gamma - 1)) :=
  rfl

theorem Adiabatic.run_dT_temperature (st : PState) (co : GasCoeffs) (T2 : ℝ)
    (s i : ℕ) :
    (Adiabatic.run_dT st co T2 s).temperature i = linspace st.T1 T2 s i := rfl

theorem Adiabatic.run_dT_heat (st : PState) (co : GasCoeffs) (T2 : ℝ)
    (s : ℕ) : (Adiabatic.run_dT st co T2 s).heat_absorbed = 0 := rfl

theorem Adiabatic.run_dT_work (st : PState) (co : GasCoeffs) (T2 : ℝ)
    (s : ℕ) :
    (Adiabatic.run_dT st co T2 s).work_done_by
      = -(st.n * co.Cv * (linspace st.T1 T2 s (s - 1) - st.T1)) := rfl

theorem xy35 : ((3 : ℝ)/5) ^ ((3 : ℝ)/2) * ((5 : ℝ)/3) ^ ((3 : ℝ)/2) = 1 := by
  rw [← Real.mul_rpow (by norm_num) (by norm_num),
    show (3 : ℝ)/5 * ((5 : ℝ)/3) = 1 by norm_num, Real.one_rpow]

theorem x35_pos : (0 : ℝ) < ((3 : ℝ)/5) ^ ((3 : ℝ)/2) :=
  Real.rpow_pos_of_pos (by norm_num) _

theorem y53_pos : (0 : ℝ) < ((5 : ℝ)/3) ^ ((3 : ℝ)/2) :=
  Real.rpow_pos_of_pos (by norm_num) _

theorem y53_sq : (((5 : ℝ)/3) ^ ((3 : ℝ)/2)) ^ (2 : ℕ) = 125/27 := by
  rw [← Real.rpow_natCast (((5 : ℝ)/3) ^ ((3 : ℝ)/2)) 2,
    ← Real.rpow_mul (by norm_num : (0 : ℝ) ≤ 5/3),
    show (3 : ℝ)/2 * (2 : ℕ) = (3 : ℕ) by push_cast; ring,
    Real.rpow_natCast]
  norm_num

theorem y53_lt_four : ((5 : ℝ)/3) ^ ((3 : ℝ)/2) < 4 := by
  have h := y53_sq
  nlinarith [y53_pos]

theorem two_lt_y53 : (2 : ℝ) < ((5 : ℝ)/3) ^ ((3 : ℝ)/2) := by
  have h := y53_sq
  nlinarith [y53_pos]

theorem x35_lt_half : ((3 : ℝ)/5) ^ ((3 : ℝ)/2) < 1/2 := by
  nlinarith [xy35, two_lt_y53, x35_pos]

theorem quarter_lt_x35 : (1 : ℝ)/4 < ((3 : ℝ)/5) ^ ((3 : ℝ)/2) := by
  nlinarith [xy35, y53_lt_four, x35_pos]

theorem y53_52 : ((5 : ℝ)/3) ^ ((5 : ℝ)/2)
    = 5/3 * ((5 : ℝ)/3) ^ ((3 : ℝ)/2) := by
  rw [show (5 : ℝ)/2 = 1 + 3/2 by norm_num,
    Real.rpow_add (by norm_num) , Real.rpow_one]

/-- Coefficients of a cycle's member processes when the cycle is
monatomic: `generate_processes` passes only `diatomic=self.diatomic`
(lines 661, 668, 684, 691), so with `diatomic=False` the member falls to
the default branch of `BaseProcess.__init__`. -/
def coNoFlags : GasCoeffs := initCoeffs false false

theorem alpha_500_300 (r : ℝ) :
    Carnot.alpha r 500 300 (5/3) = r * ((3 : ℝ)/5) ^ ((3 : ℝ)/2) := by
  rw [Carnot.alpha, show (300 : ℝ)/500 = 3/5 by norm_num,
    show (1 : ℝ)/((5 : ℝ)/3 - 1) = 3/2 by norm_num]

theorem beta_500_300 (r : ℝ) :
    Carnot.beta r 500 300 (5/3) = 1/r * ((5 : ℝ)/3) ^ ((3 : ℝ)/2) := by
  rw [Carnot.beta, show (500 : ℝ)/300 = 5/3 by norm_num,
    show (1 : ℝ)/((5 : ℝ)/3 - 1) = 3/2 by norm_num]

theorem carnot_st2_eq (r n V1 : ℝ) :
    Carnot.st2 r 500 300 n V1 (5/3) coNoFlags
      = ⟨n, backfillP n (Carnot.alpha r 500 300 (5/3) * V1) 500,
          Carnot.alpha r 500 300 (5/3) * V1, 500⟩ := by
  simp only [Carnot.st2, Carnot.proc1, Isothermal.run_dV_vol,
    Isothermal.run_dV_temp, linspace_last_K]

theorem carnot_v3 (r n V1 : ℝ) :
    (Carnot.proc2 r 500 300 n V1 (5/3) coNoFlags).volume (K - 1) = r * V1 := by
  simp only [Carnot.proc2, carnot_st2_eq, Adiabatic.run_dT_volume,
    linspace_last_K]
  show Carnot.alpha r 500 300 (5/3) * V1
      * ((500 : ℝ)/300) ^ ((1 : ℝ)/(coNoFlags.gamma - 1)) = r * V1
  rw [alpha_500_300, show (500 : ℝ)/300 = 5/3 by norm_num,
    show (1 : ℝ)/(coNoFlags.gamma - 1) = 3/2 by
      show (1 : ℝ)/((5 : ℝ)/3 - 1) = 3/2; norm_num]
  linear_combination (r * V1) * xy35

theorem carnot_st3_eq (r n V1 : ℝ) :
    Carnot.st3 r 500 300 n V1 (5/3) coNoFlags
      = ⟨n, backfillP n (r * V1) 300, r * V1, 300⟩ := by
  simp only [Carnot.st3, carnot_v3]

theorem carnot_p3_vol (r n V1 : ℝ) (hr : r ≠ 0) :
    (Carnot.proc3 r 500 300 n V1 (5/3) coNoFlags).volume (K - 1)
      = ((5 : ℝ)/3) ^ ((3 : ℝ)/2) * V1 := by
  simp only [Carnot.proc3, carnot_st3_eq, carnot_v3,
    Isothermal.run_dV_vol, linspace_last_K]
  rw [beta_500_300]
  field_simp
  ring

theorem carnot_p3_temp (r n V1 : ℝ) :
    (Carnot.proc3 r 500 300 n V1 (5/3) coNoFlags).temperature (K - 1)
      = 300 := by
  simp only [Carnot.proc3, carnot_st3_eq, Isothermal.run_dV_temp]

theorem carnot_st4_eq (r n V1 : ℝ) (hr : r ≠ 0) :
    Carnot.st4 r 500 300 n V1 (5/3) coNoFlags
      = ⟨n, backfillP n (((5 : ℝ)/3) ^ ((3 : ℝ)/2) * V1) 300,
          ((5 : ℝ)/3) ^ ((3 : ℝ)/2) * V1, 300⟩ := by
  simp only [Carnot.st4, carnot_p3_vol r n V1 hr, carnot_p3_temp]

theorem carnot_p4_vol (r n V1 : ℝ) (hr : r ≠ 0) :
    (Carnot.proc4 r 500 300 n V1 (5/3) coNoFlags).volume (K - 1) = V1 := by
  simp only [Carnot.proc4, carnot_st4_eq r n V1 hr, Adiabatic.run_dT_volume,
    linspace_last_K]
  show ((5 : ℝ)/3) ^ ((3 : ℝ)/2) * V1
      * ((300 : ℝ)/500) ^ ((1 : ℝ)/(coNoFlags.gamma - 1)) = V1
  rw [show (300 : ℝ)/500 = 3/5 by norm_num,
    show (1 : ℝ)/(coNoFlags.gamma - 1) = 3/2 by
      show (1 : ℝ)/((5 : ℝ)/3 - 1) = 3/2; norm_num]
  linear_combination V1 * xy35

theorem carnot_p4_temp (r n V1 : ℝ) :
    (Carnot.proc4 r 500 300 n V1 (5/3) coNoFlags).temperature (K - 1)
      = 500 := by
  simp only [Carnot.proc4, Adiabatic.run_dT_temperature, linspace_last_K]

theorem carnot_p4_press (r n V1 : ℝ) (hr : r ≠ 0) (hV1 : V1 ≠ 0) :
    (Carnot.proc4 r 500 300 n V1 (5/3) coNoFlags).pressure (K - 1)
      = backfillP n V1 500 := by
  simp only [Carnot.proc4, carnot_st4_eq r n V1 hr, Adiabatic.run_dT_pressure,
    linspace_last_K]
  show backfillP n (((5 : ℝ)/3) ^ ((3 : ℝ)/2) * V1) 300
      * ((500 : ℝ)/300) ^ (coNoFlags.gamma/(coNoFlags.gamma - 1))
      = backfillP n V1 500
  rw [show (500 : ℝ)/300 = 5/3 by norm_num,
    show coNoFlags.gamma/(coNoFlags.gamma - 1) = (5 : ℝ)/2 by
      show (5 : ℝ)/3/((5 : ℝ)/3 - 1) = 5/2; norm_num,
    y53_52, backfillP, backfillP]
  have hy := y53_pos
  field_simp
  ring

theorem carnot_Q1 (r n V1 : ℝ) (hV1 : V1 ≠ 0) :
    (Carnot.proc1 r 500 300 n V1 (5/3) coNoFlags).heat_absorbed
      = R * n * 500 * Real.log (Carnot.alpha r 500 300 (5/3)) := by
  simp only [Carnot.proc1, Isothermal.run_dV_heatAbs, linspace_last_K]
  rw [mul_div_assoc, div_self hV1, mul_one]

theorem carnot_W1 (r n V1 : ℝ) (hV1 : V1 ≠ 0) :
    (Carnot.proc1 r 500 300 n V1 (5/3) coNoFlags).work_done_by
      = R * n * 500 * Real.log (Carnot.alpha r 500 300 (5/3)) := by
  simp only [Carnot.proc1, Isothermal.run_dV_work, linspace_last_K]
  rw [mul_div_assoc, div_self hV1, mul_one]

theorem carnot_Q3 (r n V1 : ℝ) (hr : r ≠ 0) (hV1 : V1 ≠ 0) :
    (Carnot.proc3 r 500 300 n V1 (5/3) coNoFlags).heat_absorbed
      = R * n * 300 * Real.log (Carnot.beta r 500 300 (5/3)) := by
  simp only [Carnot.proc3, carnot_st3_eq, carnot_v3, Isothermal.run_dV_heatAbs,
    linspace_last_K]
  rw [mul_div_assoc, div_self (mul_ne_zero hr hV1), mul_one]

theorem carnot_W3 (r n V1 : ℝ) (hr : r ≠ 0) (hV1 : V1 ≠ 0) :
    (Carnot.proc3 r 500 300 n V1 (5/3) coNoFlags).work_done_by
      = R * n * 300 * Real.log (Carnot.beta r 500 300 (5/3)) := by
  simp only [Carnot.proc3, carnot_st3_eq, carnot_v3, Isothermal.run_dV_work,
    linspace_last_K]
  rw [mul_div_assoc, div_self (mul_ne_zero hr hV1), mul_one]

theorem carnot_W2 (r n V1 : ℝ) :
    (Carnot.proc2 r 500 300 n V1 (5/3) coNoFlags).work_done_by
      = -(n * (3/2 * R) * (300 - 500)) := by
  simp only [Carnot.proc2, carnot_st2_eq, Adiabatic.run_dT_work,
    linspace_last_K]
  rfl

theorem carnot_W4 (r n V1 : ℝ) (hr : r ≠ 0) :
    (Carnot.proc4 r 500 300 n V1 (5/3) coNoFlags).work_done_by
      = -(n * (3/2 * R) * (500 - 300)) := by
  simp only [Carnot.proc4, carnot_st4_eq r n V1 hr, Adiabatic.run_dT_work,
    linspace_last_K]
  rfl

theorem alpha4_gt_one : (1 : ℝ) < Carnot.alpha 4 500 300 (5/3) := by
  rw [alpha_500_300]; nlinarith [quarter_lt_x35]

theorem alpha4_pos : (0 : ℝ) < Carnot.alpha 4 500 300 (5/3) :=
  lt_trans one_pos alpha4_gt_one

theorem beta4_pos : (0 : ℝ) < Carnot.beta 4 500 300 (5/3) := by
  rw [beta_500_300]; nlinarith [y53_pos]

theorem ab4_one :
    Carnot.alpha 4 500 300 (5/3) * Carnot.beta 4 500 300 (5/3) = 1 := by
  rw [alpha_500_300, beta_500_300]
  linear_combination xy35

theorem log_beta4 :
    Real.log (Carnot.beta 4 500 300 (5/3))
      = -Real.log (Carnot.alpha 4 500 300 (5/3)) := by
  have h := Real.log_mul (ne_of_gt alpha4_pos) (ne_of_gt beta4_pos)
  rw [ab4_one, Real.log_one] at h
  linarith

theorem log_alpha4_pos : 0 < Real.log (Carnot.alpha 4 500 300 (5/3)) :=
  Real.log_pos alpha4_gt_one

theorem alpha2_lt_one : Carnot.alpha 2 500 300 (5/3) < 1 := by
  rw [alpha_500_300]; nlinarith [x35_lt_half]

theorem alpha2_pos : (0 : ℝ) < Carnot.alpha 2 500 300 (5/3) := by
  rw [alpha_500_300]; nlinarith [x35_pos]

theorem beta2_pos : (0 : ℝ) < Carnot.beta 2 500 300 (5/3) := by
  rw [beta_500_300]; nlinarith [y53_pos]

theorem ab2_one :
    Carnot.alpha 2 500 300 (5/3) * Carnot.beta 2 500 300 (5/3) = 1 := by
  rw [alpha_500_300, beta_500_300]
  linear_combination xy35

theorem log_beta2 :
    Real.log (Carnot.beta 2 500 300 (5/3))
      = -Real.log (Carnot.alpha 2 500 300 (5/3)) := by
  have h := Real.log_mul (ne_of_gt alpha2_pos) (ne_of_gt beta2_pos)
  rw [ab2_one, Real.log_one] at h
  linarith

theorem log_alpha2_neg : Real.log (Carnot.alpha 2 500 300 (5/3)) < 0 :=
  Real.log_neg alpha2_pos alpha2_lt_one

theorem carnot_Q2 (r T_hot T_cold n V1 gamma : ℝ) (co : GasCoeffs) :
    (Carnot.proc2 r T_hot T_cold n V1 gamma co).heat_absorbed = 0 := rfl

theorem carnot_Q4 (r T_hot T_cold n V1 gamma : ℝ) (co : GasCoeffs) :
    (Carnot.proc4 r T_hot T_cold n V1 gamma co).heat_absorbed = 0 := rfl

theorem carnot_ab_some4 : Carnot.calculate_alpha_beta 4 500 300 (5/3)
    = some (Carnot.alpha 4 500 300 (5/3), Carnot.beta 4 500 300 (5/3)) := by
  have h2 : ¬(Carnot.beta 4 500 300 (5/3) * 4 ≤ 1) := by
    push_neg
    rw [show Carnot.beta 4 500 300 (5/3) * 4 = ((5 : ℝ)/3) ^ ((3 : ℝ)/2) by
      rw [beta_500_300]; ring]
    linarith [two_lt_y53]
  unfold Carnot.calculate_alpha_beta
  rw [if_neg (ne_of_gt alpha4_pos), if_neg h2]

theorem carnot_ab_some2 : Carnot.calculate_alpha_beta 2 500 300 (5/3)
    = some (Carnot.alpha 2 500 300 (5/3), Carnot.beta 2 500 300 (5/3)) := by
  have h2 : ¬(Carnot.beta 2 500 300 (5/3) * 2 ≤ 1) := by
    push_neg
    rw [show Carnot.beta 2 500 300 (5/3) * 2 = ((5 : ℝ)/3) ^ ((3 : ℝ)/2) by
      rw [beta_500_300]; ring]
    linarith [two_lt_y53]
  unfold Carnot.calculate_alpha_beta
  rw [if_neg (ne_of_gt alpha2_pos), if_neg h2]

/-- C3, amended claim: with the compression ratio raised to 4 (the claimed
ratio 2 is below the minimum valid ratio (500/300)^(3/2) = 2.15 and makes
the run abort), the Carnot cycle at `T_hot = 500`, `T_cold = 300`,
monatomic, `n = 1`, `V1 = 0.01` completes: every closure assertion passes
exactly and the reported efficiency is exactly `2/5 = 1 - 300/500`. -/
theorem C3_amended :
    Carnot.run 4 500 300 1 0.01 (5/3) coNoFlags = some (2/5) := by
  have hV1 : (0.01 : ℝ) ≠ 0 := by norm_num
  have hr4 : (4 : ℝ) ≠ 0 := by norm_num
  have h1 : |(Carnot.proc2 4 500 300 1 0.01 (5/3) coNoFlags).volume (K - 1)
      - 0.01 * 4| < allowed_error := by
    rw [carnot_v3, show (4 : ℝ) * 0.01 - 0.01 * 4 = 0 by ring]
    exact abs_zero_lt_allowed
  have h2 : |(Carnot.proc4 4 500 300 1 0.01 (5/3) coNoFlags).volume (K - 1)
      - 0.01| < allowed_error := by
    rw [carnot_p4_vol 4 1 0.01 hr4, sub_self]
    exact abs_zero_lt_allowed
  have h3 : |(Carnot.proc4 4 500 300 1 0.01 (5/3) coNoFlags).temperature (K - 1)
      - 500| < allowed_error := by
    rw [carnot_p4_temp, sub_self]
    exact abs_zero_lt_allowed
  have h4 : |(Carnot.proc4 4 500 300 1 0.01 (5/3) coNoFlags).pressure (K - 1)
      - backfillP 1 0.01 500| < allowed_error := by
    rw [carnot_p4_press 4 1 0.01 hr4 hV1, sub_self]
    exact abs_zero_lt_allowed
  have hA_pos : 0 < R * 1 * 500 * Real.log (Carnot.alpha 4 500 300 (5/3)) :=
    mul_pos (by norm_num [R]) log_alpha4_pos
  have hB_neg : R * 1 * 300 * -Real.log (Carnot.alpha 4 500 300 (5/3)) < 0 := by
    have h := mul_pos (show (0 : ℝ) < R * 1 * 300 by norm_num [R]) log_alpha4_pos
    nlinarith
  have hd1 : R * 1 * 300 * -Real.log (Carnot.alpha 4 500 300 (5/3))
      / (R * 1 * 500 * Real.log (Carnot.alpha 4 500 300 (5/3))) = -(3/5) := by
    rw [div_eq_iff (ne_of_gt hA_pos)]; ring
  have hd2 : (R * 1 * 500 * Real.log (Carnot.alpha 4 500 300 (5/3))
        + -(1 * (3/2 * R) * (300 - 500))
        + R * 1 * 300 * -Real.log (Carnot.alpha 4 500 300 (5/3))
        + -(1 * (3/2 * R) * (500 - 300)))
      / (R * 1 * 500 * Real.log (Carnot.alpha 4 500 300 (5/3))) = 2/5 := by
    rw [div_eq_iff (ne_of_gt hA_pos)]; ring
  simp only [Carnot.run, carnot_ab_some4]
  rw [if_neg (not_not_intro h1), if_neg (not_not_intro h2),
    if_neg (not_not_intro h3), if_neg (not_not_intro h4)]
  simp only [carnot_Q1 4 1 0.01 hV1, carnot_Q3 4 1 0.01 hr4 hV1,
    carnot_Q2, carnot_Q4, carnot_W1 4 1 0.01 hV1, carnot_W2,
    carnot_W3 4 1 0.01 hr4 hV1, carnot_W4 4 1 0.01 hr4, log_beta4,
    sumPos, sumNeg, List.map_cons, List.map_nil, List.sum_cons,
    List.sum_nil, ite_self, add_zero, zero_add]
  rw [if_pos hA_pos, if_neg (not_lt.mpr (le_of_lt hB_neg)),
    if_neg (not_lt.mpr (le_of_lt hA_pos)), if_pos hB_neg]
  simp only [add_zero, zero_add]
  rw [hd1, hd2, abs_neg,
    abs_of_nonneg (show (0 : ℝ) ≤ 3/5 by norm_num),
    abs_of_nonneg (show (0 : ℝ) ≤ 2/5 by norm_num),
    show (1 : ℝ) - 3/5 - 2/5 = 0 by norm_num,
    if_pos abs_zero_lt_allowed]
  norm_num

/-- C3, counterexample.  At the claimed input — compression ratio 2,
`T_hot = 500`, `T_cold = 300`, monatomic, `n = 1`, `V1 = 0.01` — the Carnot
constructor does not complete: alpha = 2*(3/5)^(3/2) < 1, so the
"isothermal expansion" shrinks the volume, the heat-based efficiency
evaluates to `-2/3`, the work-based efficiency to `2/3`, and the
cross-check assertion in `_calculate_efficiency` fires (the run aborts
instead of reporting efficiency 0.4; the closure assertions themselves do
pass exactly). -/
theorem C3_counterexample :
    Carnot.run 2 500 300 1 0.01 (5/3) coNoFlags = none := by
  have hV1 : (0.01 : ℝ) ≠ 0 := by norm_num
  have hr2 : (2 : ℝ) ≠ 0 := by norm_num
  have h1 : |(Carnot.proc2 2 500 300 1 0.01 (5/3) coNoFlags).volume (K - 1)
      - 0.01 * 2| < allowed_error := by
    rw [carnot_v3, show (2 : ℝ) * 0.01 - 0.01 * 2 = 0 by ring]
    exact abs_zero_lt_allowed
  have h2 : |(Carnot.proc4 2 500 300 1 0.01 (5/3) coNoFlags).volume (K - 1)
      - 0.01| < allowed_error := by
    rw [carnot_p4_vol 2 1 0.01 hr2, sub_self]
    exact abs_zero_lt_allowed
  have h3 : |(Carnot.proc4 2 500 300 1 0.01 (5/3) coNoFlags).temperature (K - 1)
      - 500| < allowed_error := by
    rw [carnot_p4_temp, sub_self]
    exact abs_zero_lt_allowed
  have h4 : |(Carnot.proc4 2 500 300 1 0.01 (5/3) coNoFlags).pressure (K - 1)
      - backfillP 1 0.01 500| < allowed_error := by
    rw [carnot_p4_press 2 1 0.01 hr2 hV1, sub_self]
    exact abs_zero_lt_allowed
  have hA_neg : R * 1 * 500 * Real.log (Carnot.alpha 2 500 300 (5/3)) < 0 :=
    mul_neg_of_pos_of_neg (by norm_num [R]) log_alpha2_neg
  have hB_pos : 0 < R * 1 * 300 * -Real.log (Carnot.alpha 2 500 300 (5/3)) :=
    mul_pos (by norm_num [R]) (neg_pos.mpr log_alpha2_neg)
  have hd1 : R * 1 * 500 * Real.log (Carnot.alpha 2 500 300 (5/3))
      / (R * 1 * 300 * -Real.log (Carnot.alpha 2 500 300 (5/3))) = -(5/3) := by
    rw [div_eq_iff (ne_of_gt hB_pos)]; ring
  have hd2 : (R * 1 * 500 * Real.log (Carnot.alpha 2 500 300 (5/3))
        + -(1 * (3/2 * R) * (300 - 500))
        + R * 1 * 300 * -Real.log (Carnot.alpha 2 500 300 (5/3))
        + -(1 * (3/2 * R) * (500 - 300)))
      / (R * 1 * 300 * -Real.log (Carnot.alpha 2 500 300 (5/3))) = -(2/3) := by
    rw [div_eq_iff (ne_of_gt hB_pos)]; ring
  simp only [Carnot.run, carnot_ab_some2]
  rw [if_neg (not_not_intro h1), if_neg (not_not_intro h2),
    if_neg (not_not_intro h3), if_neg (not_not_intro h4)]
  simp only [carnot_Q1 2 1 0.01 hV1, carnot_Q3 2 1 0.01 hr2 hV1,
    carnot_Q2, carnot_Q4, carnot_W1 2 1 0.01 hV1, carnot_W2,
    carnot_W3 2 1 0.01 hr2 hV1, carnot_W4 2 1 0.01 hr2, log_beta2,
    sumPos, sumNeg, List.map_cons, List.map_nil, List.sum_cons,
    List.sum_nil, ite_self, add_zero, zero_add]
  rw [if_neg (not_lt.mpr (le_of_lt hA_neg)), if_pos hB_pos,
    if_pos hA_neg, if_neg (not_lt.mpr (le_of_lt hB_pos))]
  simp only [add_zero, zero_add]
  rw [hd1, hd2, abs_neg,
    abs_of_nonneg (show (0 : ℝ) ≤ 5/3 by norm_num), abs_neg,
    abs_of_nonneg (show (0 : ℝ) ≤ 2/3 by norm_num),
    show (1 : ℝ) - 5/3 - 2/3 = -(4/3) by norm_num, abs_neg,
    abs_of_nonneg (show (0 : ℝ) ≤ 4/3 by norm_num),
    if_neg (show ¬((4 : ℝ)/3 < allowed_error) by norm_num [allowed_error])]

end termoPy
